import Mathlib

/-!
Verification development for the GalSim standalone Poisson-solver core
(repository craiglagegit/GalSim).

The sources in scope are:
* `pysrc/Table.cpp` — the python binding of the `Table<double,double>`
  lookup-table type (`makeTable`, `convertGetArgs`, `convertGetVals`,
  `convertGetInterp`);
* `poisson/bf.cfg` — the reference configuration file of the Poisson
  solver.

The numerical solver itself (grid construction, charge deposition,
multigrid V-cycle SOR solve, field sampling and carrier tracing) is not
among the source files; where a claim depends on it, its behaviour is
modelled from the specification and each such definition carries a doc
comment starting with `Modelled from the spec:`.

Doubles that the C++ code stores and moves around without arithmetic are
embedded as rationals (`ℚ`); no floating-point rounding is involved in
any claim proved here.
-/

namespace GalSim

/-! ### Table bindings (`pysrc/Table.cpp`) -/

/-- The interpolant enum of `Table<double,double>`
(`linear`, `spline`, `floor`, `ceil`). -/
inductive Interpolant where
  | linear
  | spline
  | floor
  | ceil
deriving DecidableEq, Repr

/-- One entry of the table vector: `Table<double,double>::Entry` holds an
`arg` and a `val`. -/
structure Entry where
  arg : ℚ
  val : ℚ
deriving DecidableEq, Repr

/-- Modelled from the spec: `Table.h` is not among the source files; the
use in `Table.cpp` shows the table stores the entry vector exposed by
`getV()` and the interpolant exposed by `getInterp()`, with the
constructor `Table(vargs, vvals, i)` pairing `vargs[i]` with `vvals[i]`
into entries and storing `i`. -/
structure Table where
  v : List Entry
  interp : Interpolant
deriving DecidableEq, Repr

/-- The errors `PyTable::makeTable` can raise (each a python
`ValueError` with the message given by `errMsg`). -/
inductive TableError where
  | sizeMismatch
  | invalidInterp
deriving DecidableEq, Repr

/-- The `PyErr_SetString` message attached to each error in
`PyTable::makeTable` / `PyTable::convertGetInterp`. -/
def errMsg : TableError → String
  | .sizeMismatch => "args and vals must be the same size"
  | .invalidInterp => "Invalid interpolant"

/-- The interpolant-name dispatch chain of `PyTable::makeTable`
(`Table.cpp` lines 65–73): exactly the four names `"linear"`,
`"spline"`, `"floor"`, `"ceil"` are accepted. -/
def parseInterp (s : String) : Option Interpolant :=
  if s = "linear" then some .linear
  else if s = "spline" then some .spline
  else if s = "floor" then some .floor
  else if s = "ceil" then some .ceil
  else none

/-- `PyTable::makeTable` (`Table.cpp` lines 40–76), after the
python-sequence inputs have been converted to vectors: first the size
check (raising `"args and vals must be the same size"`), then the
interpolant-name check (raising `"Invalid interpolant"`), and only then
is the `Table` object constructed. -/
def makeTable (args vals : List ℚ) (s : String) : Except TableError Table :=
  if args.length ≠ vals.length then .error .sizeMismatch
  else
    match parseInterp s with
    | some i => .ok ⟨List.zipWith Entry.mk args vals, i⟩
    | none => .error .invalidInterp

/-- `PyTable::convertGetArgs` (`Table.cpp` lines 78–84): the list of the
`arg` field of each entry of `getV()`, in order. -/
def convertGetArgs (t : Table) : List ℚ :=
  t.v.map Entry.arg

/-- `PyTable::convertGetVals` (`Table.cpp` lines 86–92): the list of the
`val` field of each entry of `getV()`, in order. -/
def convertGetVals (t : Table) : List ℚ :=
  t.v.map Entry.val

/-- `PyTable::convertGetInterp` (`Table.cpp` lines 94–112): the stored
interpolant rendered back to its name.  The C++ `switch` has a `default`
branch raising `"Invalid interpolant"`; the enum has exactly the four
values, so the match here is total. -/
def convertGetInterp (t : Table) : String :=
  match t.interp with
  | .linear => "linear"
  | .spline => "spline"
  | .floor => "floor"
  | .ceil => "ceil"

/-! ### The reference configuration (`poisson/bf.cfg`) -/

/-- A value on the right-hand side of a `key = value` line of `bf.cfg`:
a number, a pair of numbers, or a bare string. -/
inductive CfgValue where
  | num (q : ℚ)
  | pair (a b : ℚ)
  | str (s : String)
deriving DecidableEq, Repr

/-- The assignments of `poisson/bf.cfg`, in file order, one list item
per `key = value` line (comments and blank lines dropped, numerals made
exact rationals). -/
def bfConfig : List (String × CfgValue) :=
  [("w", .num (19/10)),
   ("ncycle", .num 128),
   ("iterations", .num 1),
   ("ScaleFactor", .num 2),
   ("PixelSize", .num 10),
   ("GridsPerPixel", .num 16),
   ("Nx", .num 160),
   ("Ny", .num 160),
   ("XBCType", .num 1),
   ("YBCType", .num 1),
   ("SimulationRegionLowerLeft", .pair 5 5),
   ("Vbb", .num (-60)),
   ("Vparallel_lo", .num (-8)),
   ("Vparallel_hi", .num 4),
   ("Vserial_lo", .num (-4)),
   ("Vserial_lo", .num 6),
   ("Vscupper", .num 19),
   ("GateOxide", .num (15/100)),
   ("BackgroundDoping", .num (-1000000000000)),
   ("ChannelStopDoping", .num (-2000000000000)),
   ("ChannelStopDepth", .num 2),
   ("ChannelStopWidth", .num 2),
   ("ChannelDoping", .num 800000000000),
   ("ChannelDepth", .num 1),
   ("UndepletedChannelStop", .num 0),
   ("Vchannelstop", .num 0),
   ("NumberofPixelRegions", .num 1),
   ("PixelRegionLowerLeft_0", .pair 0 0),
   ("PixelRegionUpperRight_0", .pair 110 110),
   ("NumberofFilledWells_0", .num 1),
   ("CollectedCharge_0_0", .num 160000),
   ("FilledPixelCoords_0_0", .pair 55 55),
   ("DistributedCharge", .num 2),
   ("NumberofFixedRegions", .num 0),
   ("ElectronZ0", .num 90),
   ("LogEField", .num 1),
   ("LogPixels", .num 1),
   ("LogPixelPaths", .num 1),
   ("PixelAreas", .num 10),
   ("NumVertices", .num 8),
   ("PixelBoundaryTestType", .num 1),
   ("PixelBoundaryLowerLeft", .pair 10 10),
   ("PixelBoundaryUpperRight", .pair 100 100),
   ("PixelBoundaryNx", .num 9),
   ("PixelBoundaryNy", .num 9),
   ("Sigmax", .num (1/2)),
   ("Sigmay", .num (1/2)),
   ("Xoffset", .num 0),
   ("Yoffset", .num 0),
   ("NumElec", .num 0),
   ("NumSteps", .num 1),
   ("CCDTemperature", .num 173),
   ("DiffMultiplier", .num 1),
   ("NumDiffSteps", .num 16),
   ("PixelBoundaryStepSize", .pair 1 (1/5)),
   ("outputfiledir", .str "data/run3"),
   ("outputfilebase", .str "BF_256_9x9"),
   ("EdgePlot", .num 0),
   ("PlotEField", .num 0),
   ("SaveData", .num 10)]

/-- All values assigned to key `k` in `bf.cfg`, in file order. -/
def cfgValues (k : String) : List CfgValue :=
  (bfConfig.filter (fun p => p.1 = k)).map Prod.snd

/-- The value a last-assignment-wins loader yields for key `k`
(`none` when the key is never assigned). -/
def cfgLast (k : String) : Option CfgValue :=
  (cfgValues k).getLast?

/-! ### Spec-modelled solver core

The Poisson-solver sources (grid construction, charge deposition,
multigrid solve, field sampling, carrier tracing) are not among the
source files; the definitions below model them from the specification. -/

/-- The charge distribution modes selected by the `DistributedCharge`
configuration key: `0` = point charge in the center, `1` = uniform over
one phase, `2` = uniform over two phases. -/
inductive ChargeDistMode where
  | point
  | singlePhase
  | twoPhase
deriving DecidableEq, Repr

/-- Modelled from the spec: the grid cells available under one filled
well, each carried by its cell volume — the single deepest cell, and the
cells under each of two adjacent gate phases. -/
structure WellCells where
  deepestCellVolume : ℚ
  phaseOneVolumes : List ℚ
  phaseTwoVolumes : List ℚ
deriving DecidableEq, Repr

/-- Modelled from the spec: the footprint of cells over which a well's
charge is spread — Point uses the single deepest cell, SinglePhase the
cells under one gate phase, TwoPhase the cells under two adjacent
phases. -/
def footprintVolumes : ChargeDistMode → WellCells → List ℚ
  | .point, g => [g.deepestCellVolume]
  | .singlePhase, g => g.phaseOneVolumes
  | .twoPhase, g => g.phaseOneVolumes ++ g.phaseTwoVolumes

/-- Modelled from the spec: `depositCharge` spreads the well's total
collected charge `Q` uniformly over the footprint, giving every
footprint cell the charge density `Q / totalVolume`. -/
def depositWell (m : ChargeDistMode) (g : WellCells) (Q : ℚ) : List ℚ :=
  (footprintVolumes m g).map fun _ => Q / (footprintVolumes m g).sum

/-- The sum over all cells of deposited charge density × cell volume. -/
def depositedTotal (m : ChargeDistMode) (g : WellCells) (Q : ℚ) : ℚ :=
  (List.zipWith (fun d v => d * v) (depositWell m g Q) (footprintVolumes m g)).sum

/-- Modelled from the spec: `n` SOR smoothing sweeps are `n` iterations
of the one-sweep update. -/
def smooth {F : Type} (sweep : F → F) (n : Nat) (φ : F) : F :=
  sweep^[n] φ

/-- Modelled from the spec: one V-cycle — the restriction to coarser
levels, coarse smoothing and prolongation back (abstracted as the
correction `cc`), followed by `ncycle` smoothing sweeps at the finest
level. -/
def vCycle {F : Type} (sweep cc : F → F) (ncycle : Nat) (φ : F) : F :=
  smooth sweep ncycle (cc φ)

/-- Modelled from the spec: the full solve is exactly `iterations`
V-cycles, with no dynamic convergence test. -/
def solve {F : Type} (sweep cc : F → F) (iterations ncycle : Nat) (φ : F) : F :=
  (vCycle sweep cc ncycle)^[iterations] φ

/-- The sweep instrumented to count how many times it runs. -/
def countingSweep {F : Type} (sweep : F → F) : F × Nat → F × Nat :=
  fun p => (sweep p.1, p.2 + 1)

/-- `vCycle` with the finest-level sweeps counted. -/
def vCycleCounting {F : Type} (sweep cc : F → F) (ncycle : Nat) :
    F × Nat → F × Nat :=
  fun p => (countingSweep sweep)^[ncycle] (cc p.1, p.2)

/-- `solve` with the finest-level sweeps counted, starting from zero. -/
def solveCounting {F : Type} (sweep cc : F → F) (iterations ncycle : Nat)
    (φ : F) : F × Nat :=
  (vCycleCounting sweep cc ncycle)^[iterations] (φ, 0)

/-- The setup-time configuration errors (fatal before any solving). -/
inductive ConfigError where
  | badGridSize
deriving DecidableEq, Repr

/-- Modelled from the spec: the grid record produced by `buildGrid`. -/
structure Grid where
  nx : Nat
  ny : Nat
  scaleFactor : Nat
  pixelSize : ℚ
  gridsPerPixel : Nat
  lowerLeft : ℚ × ℚ
deriving DecidableEq, Repr

/-- Modelled from the spec: `buildGrid(scaleFactor, pixelSize,
gridsPerPixel, nx, ny, lowerLeft)` validates at setup that `nx` and `ny`
are multiples of 32 (so the multigrid coarsening levels are supported)
and fails with a `ConfigError` otherwise, before any solving begins. -/
def buildGrid (scaleFactor : Nat) (pixelSize : ℚ) (gridsPerPixel : Nat)
    (nx ny : Nat) (lowerLeft : ℚ × ℚ) : Except ConfigError Grid :=
  if nx % 32 = 0 ∧ ny % 32 = 0 then
    .ok ⟨nx, ny, scaleFactor, pixelSize, gridsPerPixel, lowerLeft⟩
  else
    .error .badGridSize

/-- A position in the detector volume. -/
structure Pos where
  x : ℚ
  y : ℚ
  z : ℚ
deriving DecidableEq, Repr

/-- The rectangular solved extent of the grid. -/
structure Extent where
  xmin : ℚ
  xmax : ℚ
  ymin : ℚ
  ymax : ℚ
  zmin : ℚ
  zmax : ℚ
deriving DecidableEq, Repr

/-- Whether a position lies outside the solved extent. -/
def isOutside (e : Extent) (p : Pos) : Bool :=
  decide (p.x < e.xmin ∨ e.xmax < p.x ∨ p.y < e.ymin ∨ e.ymax < p.y ∨
    p.z < e.zmin ∨ e.zmax < p.z)

/-- The recoverable sampling error. -/
inductive SampleError where
  | outOfBounds
deriving DecidableEq, Repr

/-- A sampled field value `(Ex, Ey, Ez, V)`. -/
structure FieldSample where
  ex : ℚ
  ey : ℚ
  ez : ℚ
  v : ℚ
deriving DecidableEq, Repr

/-- Modelled from the spec: `fieldAt(PotentialField, x, y, z)` signals
`OutOfBounds` when the point lies outside the grid's solved extent and
otherwise returns the interpolated field; the trilinear interpolation of
the solved potential is abstracted as the function `interp`. -/
def fieldAt (interp : Pos → FieldSample) (e : Extent) (p : Pos) :
    Except SampleError FieldSample :=
  if isOutside e p then .error .outOfBounds else .ok (interp p)

/-- The terminal-state tags of a carrier. -/
inductive CarrierState where
  | inFlight
  | landed
  | absorbed
deriving DecidableEq, Repr

/-- A charge carrier being traced. -/
structure Carrier where
  pos : Pos
  state : CarrierState
deriving DecidableEq, Repr

/-- Modelled from the spec: one step of the Carrier Tracer — sample the
field at the carrier's position; the `OutOfBounds` signal is treated as
the `absorbed` terminal transition (never a run-fatal error), otherwise
the carrier drifts by `dt` times the field. -/
def traceStep (interp : Pos → FieldSample) (e : Extent) (dt : ℚ)
    (c : Carrier) : Carrier :=
  match fieldAt interp e c.pos with
  | .error .outOfBounds => { c with state := .absorbed }
  | .ok f =>
      { pos := ⟨c.pos.x + dt * f.ex, c.pos.y + dt * f.ey, c.pos.z + dt * f.ez⟩,
        state := c.state }

/-- Modelled from the spec: the state of a full run couples the solver
inputs with the random-number state used only by the carrier tracer. -/
structure RunState (F : Type) where
  field : F
  rngSeed : Nat

/-- Modelled from the spec: the Field Solver part of a run reads only
the solver inputs (initial field, iteration counts), never the tracer's
random state. -/
def runFieldSolver {F : Type} (sweep cc : F → F) (iterations ncycle : Nat)
    (s : RunState F) : F :=
  solve sweep cc iterations ncycle s.field

/-- Case analysis on a successful interpolant-name parse. -/
theorem parseInterp_eq_some {s : String} {i : Interpolant}
    (h : parseInterp s = some i) :
    (s = "linear" ∧ i = .linear) ∨ (s = "spline" ∧ i = .spline) ∨
    (s = "floor" ∧ i = .floor) ∨ (s = "ceil" ∧ i = .ceil) := by
  unfold parseInterp at h
  split_ifs at h with h1 h2 h3 h4 <;> simp_all

/-- C2: with inputs of equal size, an interpolant name other than exactly
`"linear"`, `"spline"`, `"floor"`, `"ceil"` makes `makeTable` fail with
the invalid-interpolant `ValueError` and no table is produced, while each
of the four names yields a table carrying the corresponding
interpolant. -/
theorem makeTable_interp_validation (args vals : List ℚ)
    (hlen : args.length = vals.length) :
    (∀ s : String, s ≠ "linear" → s ≠ "spline" → s ≠ "floor" → s ≠ "ceil" →
      makeTable args vals s = .error .invalidInterp) ∧
    errMsg .invalidInterp = "Invalid interpolant" ∧
    makeTable args vals "linear" = .ok ⟨List.zipWith Entry.mk args vals, .linear⟩ ∧
    makeTable args vals "spline" = .ok ⟨List.zipWith Entry.mk args vals, .spline⟩ ∧
    makeTable args vals "floor" = .ok ⟨List.zipWith Entry.mk args vals, .floor⟩ ∧
    makeTable args vals "ceil" = .ok ⟨List.zipWith Entry.mk args vals, .ceil⟩ := by
  have hif : ¬ args.length ≠ vals.length := by simp [hlen]
  refine ⟨?_, rfl, ?_, ?_, ?_, ?_⟩
  · intro s h1 h2 h3 h4
    have hp : parseInterp s = none := by
      unfold parseInterp
      simp [h1, h2, h3, h4]
    unfold makeTable
    rw [if_neg hif, hp]
  all_goals
    unfold makeTable
    rw [if_neg hif]
    rfl

/-- Witness for C2 at concrete inputs: the name `"quintic"` is rejected
and `"spline"` is accepted with the spline interpolant. -/
theorem makeTable_interp_validation_w :
    makeTable [1] [2] "quintic" = .error .invalidInterp ∧
    makeTable [1] [2] "spline" =
      .ok ⟨List.zipWith Entry.mk [1] [2], .spline⟩ := by
  have h := makeTable_interp_validation [1] [2] (by decide)
  exact ⟨h.1 "quintic" (by decide) (by decide) (by decide) (by decide),
    h.2.2.2.1⟩

/-- C8: if `args` and `vals` have different lengths, `makeTable` raises
the `ValueError` whose message is `"args and vals must be the same
size"` and constructs no table; a table is only constructed when the two
lengths are equal and the interpolant name parses. -/
theorem makeTable_size_check :
    (∀ (args vals : List ℚ) (s : String), args.length ≠ vals.length →
      makeTable args vals s = .error .sizeMismatch) ∧
    errMsg .sizeMismatch = "args and vals must be the same size" ∧
    (∀ (args vals : List ℚ) (s : String) (t : Table),
      makeTable args vals s = .ok t →
      args.length = vals.length ∧ parseInterp s ≠ none) := by
  refine ⟨?_, rfl, ?_⟩
  · intro args vals s h
    unfold makeTable
    rw [if_pos h]
  · intro args vals s t h
    unfold makeTable at h
    by_cases hlen : args.length ≠ vals.length
    · rw [if_pos hlen] at h
      exact absurd h (by simp)
    · rw [if_neg hlen] at h
      cases hp : parseInterp s with
      | none => rw [hp] at h; exact absurd h (by simp)
      | some i =>
        exact ⟨by omega, Option.some_ne_none i⟩

/-- Witness for C8 at concrete inputs: one arg against zero vals fails
with the size-mismatch error. -/
theorem makeTable_size_check_w :
    makeTable [1] [] "linear" = .error .sizeMismatch :=
  makeTable_size_check.1 [1] [] "linear" (by decide)

/-- C9: whenever `makeTable` succeeds on a name `s`, reading the
interpolant back with `convertGetInterp` returns exactly `s`, and `s` is
one of the four valid names — so the `default` branch of the
enum-to-string `switch` (which would return a fifth value) is never
taken for such a table. -/
theorem getInterp_roundtrip (args vals : List ℚ) (s : String) (t : Table)
    (h : makeTable args vals s = .ok t) :
    convertGetInterp t = s ∧ s ∈ ["linear", "spline", "floor", "ceil"] := by
  unfold makeTable at h
  by_cases hlen : args.length ≠ vals.length
  · rw [if_pos hlen] at h
    exact absurd h (by simp)
  · rw [if_neg hlen] at h
    cases hp : parseInterp s with
    | none => rw [hp] at h; exact absurd h (by simp)
    | some i =>
      rw [hp] at h
      injection h with h
      rcases parseInterp_eq_some hp with ⟨rfl, rfl⟩ | ⟨rfl, rfl⟩ | ⟨rfl, rfl⟩ | ⟨rfl, rfl⟩ <;>
        subst h <;> exact ⟨rfl, by simp⟩

/-- Witness for C9 at concrete inputs: a table built with `"floor"`
reports `"floor"`. -/
theorem getInterp_roundtrip_w :
    convertGetInterp ⟨List.zipWith Entry.mk [1] [2], .floor⟩ = "floor" ∧
    "floor" ∈ ["linear", "spline", "floor", "ceil"] :=
  getInterp_roundtrip [1] [2] "floor" ⟨List.zipWith Entry.mk [1] [2], .floor⟩ rfl

/-- C10: `getArgs` and `getVals` return lists of the same length — the
number of stored entries — and position `i` of each comes from the same
entry `t.v[i]` (its `arg` and its `val` field respectively). -/
theorem getArgs_getVals_aligned (t : Table) :
    (convertGetArgs t).length = t.v.length ∧
    (convertGetVals t).length = t.v.length ∧
    ∀ i : Nat,
      (convertGetArgs t)[i]? = (t.v[i]?).map Entry.arg ∧
      (convertGetVals t)[i]? = (t.v[i]?).map Entry.val := by
  refine ⟨List.length_map _ _, List.length_map _ _, fun i => ⟨?_, ?_⟩⟩ <;>
    simp [convertGetArgs, convertGetVals]

/-- Pointwise product of a constant list against the volume list is the
constant times each volume. -/
theorem zipWith_mul_map_const (d : ℚ) (l : List ℚ) :
    List.zipWith (fun a v => a * v) (l.map fun _ => d) l =
      l.map fun v => d * v := by
  induction l with
  | nil => rfl
  | cons x xs ih =>
      simp only [List.map_cons, List.zipWith_cons_cons]
      rw [ih]

/-- Summing `d * v` over a list factors out `d`. -/
theorem sum_map_const_mul (d : ℚ) (l : List ℚ) :
    (l.map fun v => d * v).sum = d * l.sum := by
  induction l with
  | nil => simp
  | cons x xs ih => simp [ih, mul_add]

/-- C1: for every well footprint of nonzero total volume and each of the
three distribution modes, the sum over all cells of deposited density ×
cell volume equals the well's collected charge `Q` (exactly, over `ℚ`);
the reference well 0 of region 0 configures `CollectedCharge = 160000`
electrons. -/
theorem depositCharge_conserves (m : ChargeDistMode) (g : WellCells) (Q : ℚ)
    (h : (footprintVolumes m g).sum ≠ 0) :
    depositedTotal m g Q = Q ∧
    cfgLast "CollectedCharge_0_0" = some (.num 160000) := by
  refine ⟨?_, by decide⟩
  unfold depositedTotal depositWell
  rw [zipWith_mul_map_const, sum_map_const_mul, div_mul_cancel₀ _ h]

/-- Witness for C1 at a concrete footprint for each of the three
modes. -/
theorem depositCharge_conserves_w :
    depositedTotal .point ⟨2, [1, 2], [3]⟩ 160000 = 160000 ∧
    depositedTotal .singlePhase ⟨2, [1, 2], [3]⟩ 160000 = 160000 ∧
    depositedTotal .twoPhase ⟨2, [1, 2], [3]⟩ 160000 = 160000 :=
  ⟨(depositCharge_conserves .point ⟨2, [1, 2], [3]⟩ 160000
      (by norm_num [footprintVolumes])).1,
   (depositCharge_conserves .singlePhase ⟨2, [1, 2], [3]⟩ 160000
      (by norm_num [footprintVolumes])).1,
   (depositCharge_conserves .twoPhase ⟨2, [1, 2], [3]⟩ 160000
      (by norm_num [footprintVolumes])).1⟩

/-- Iterating the counting sweep `n` times iterates the sweep `n` times
and adds `n` to the counter. -/
theorem countingSweep_iterate {F : Type} (sweep : F → F) (n : Nat)
    (p : F × Nat) :
    (countingSweep sweep)^[n] p = (sweep^[n] p.1, p.2 + n) := by
  induction n with
  | zero => simp
  | succ k ih =>
      rw [Function.iterate_succ_apply', ih, Function.iterate_succ_apply']
      simp [countingSweep]
      omega

/-- One counted V-cycle performs the plain V-cycle and adds `ncycle`
finest-level sweeps to the counter. -/
theorem vCycleCounting_eq {F : Type} (sweep cc : F → F) (ncycle : Nat)
    (p : F × Nat) :
    vCycleCounting sweep cc ncycle p =
      (vCycle sweep cc ncycle p.1, p.2 + ncycle) := by
  unfold vCycleCounting vCycle smooth
  rw [countingSweep_iterate]

/-- Iterated counted V-cycles perform the plain V-cycles and add
`iterations * ncycle` to the counter. -/
theorem vCycleCounting_iterate {F : Type} (sweep cc : F → F)
    (ncycle : Nat) (iterations : Nat) (φ : F) (k : Nat) :
    (vCycleCounting sweep cc ncycle)^[iterations] (φ, k) =
      ((vCycle sweep cc ncycle)^[iterations] φ, k + iterations * ncycle) := by
  induction iterations generalizing φ k with
  | zero => simp
  | succ j ih =>
      rw [Function.iterate_succ_apply, vCycleCounting_eq, ih,
        Function.iterate_succ_apply]
      congr 1
      ring

/-- C3: for every sweep update, coarse correction and initial field, the
solve runs exactly `iterations` V-cycles and performs exactly
`iterations * ncycle` finest-level SOR sweeps — the work done is a fixed
function of the configuration, with no dynamic convergence check; the
reference configuration sets `iterations = 1` and `ncycle = 128`. -/
theorem solver_fixed_work :
    (∀ (F : Type) (sweep cc : F → F) (iterations ncycle : Nat) (φ : F),
      solveCounting sweep cc iterations ncycle φ =
        (solve sweep cc iterations ncycle φ, iterations * ncycle)) ∧
    cfgLast "iterations" = some (.num 1) ∧
    cfgLast "ncycle" = some (.num 128) := by
  refine ⟨?_, by decide, by decide⟩
  intro F sweep cc iterations ncycle φ
  unfold solveCounting solve
  rw [vCycleCounting_iterate]
  simp

/-- C4: `buildGrid` succeeds exactly when both `nx` and `ny` are
multiples of 32 and fails with a `ConfigError` at setup otherwise; the
reference configuration's `Nx = Ny = 160` (a multiple of 32) passes the
validation. -/
theorem buildGrid_validates :
    (∀ (sf : Nat) (ps : ℚ) (gpp nx ny : Nat) (ll : ℚ × ℚ),
      ((∃ g, buildGrid sf ps gpp nx ny ll = .ok g) ↔
        nx % 32 = 0 ∧ ny % 32 = 0) ∧
      (buildGrid sf ps gpp nx ny ll = .error .badGridSize ↔
        ¬(nx % 32 = 0 ∧ ny % 32 = 0))) ∧
    (∃ g, buildGrid 1 10 16 160 160 (5, 5) = .ok g) ∧
    cfgLast "Nx" = some (.num 160) ∧
    cfgLast "Ny" = some (.num 160) := by
  refine ⟨?_, ⟨_, rfl⟩, by decide, by decide⟩
  intro sf ps gpp nx ny ll
  unfold buildGrid
  by_cases h : nx % 32 = 0 ∧ ny % 32 = 0
  · rw [if_pos h]
    exact ⟨⟨fun _ => h, fun _ => ⟨_, rfl⟩⟩, by simp [h]⟩
  · rw [if_neg h]
    exact ⟨by simp [h], by simp [h]⟩

/-- C5: sampling at a carrier position outside the solved extent signals
`OutOfBounds` rather than returning a field value, and the tracer step
at that position transitions the carrier to the `absorbed` terminal
state; `traceStep` is total, so `OutOfBounds` is never run-fatal for the
tracer. -/
theorem fieldAt_out_of_bounds (interp : Pos → FieldSample) (e : Extent)
    (c : Carrier) (h : isOutside e c.pos = true) :
    fieldAt interp e c.pos = .error .outOfBounds ∧
    ∀ dt : ℚ, (traceStep interp e dt c).state = .absorbed := by
  have hf : fieldAt interp e c.pos = .error .outOfBounds := by
    unfold fieldAt
    rw [if_pos h]
  refine ⟨hf, fun dt => ?_⟩
  unfold traceStep
  rw [hf]

/-- Witness for C5: the point `(5, 0, 0)` lies outside the unit-box
extent, is signalled `OutOfBounds`, and absorbs the carrier. -/
theorem fieldAt_out_of_bounds_w :
    fieldAt (fun _ => ⟨0, 0, 0, 0⟩) ⟨0, 1, 0, 1, 0, 1⟩
        (Carrier.mk ⟨5, 0, 0⟩ .inFlight).pos = .error .outOfBounds ∧
    (traceStep (fun _ => ⟨0, 0, 0, 0⟩) ⟨0, 1, 0, 1, 0, 1⟩ 1
        (Carrier.mk ⟨5, 0, 0⟩ .inFlight)).state = .absorbed := by
  have h := fieldAt_out_of_bounds (fun _ => ⟨0, 0, 0, 0⟩) ⟨0, 1, 0, 1, 0, 1⟩
    (Carrier.mk ⟨5, 0, 0⟩ .inFlight) (by decide)
  exact ⟨h.1, h.2 1⟩

/-- C6: the Field Solver output is a deterministic function of the
solver inputs alone — two runs whose solver inputs agree produce
identical `PotentialField` output whatever the tracer's random state;
in particular running the identical configuration twice gives identical
output. -/
theorem solve_deterministic {F : Type} (sweep cc : F → F)
    (iterations ncycle : Nat) (s1 s2 : RunState F)
    (h : s1.field = s2.field) :
    runFieldSolver sweep cc iterations ncycle s1 =
      runFieldSolver sweep cc iterations ncycle s2 := by
  unfold runFieldSolver
  rw [h]

/-- Witness for C6: two runs differing only in the random seed give the
same solver output. -/
theorem solve_deterministic_w :
    runFieldSolver (fun x => x + 1) id 2 3 (RunState.mk (0 : ℚ) 17) =
      runFieldSolver (fun x => x + 1) id 2 3 (RunState.mk (0 : ℚ) 42) :=
  solve_deterministic (fun x => x + 1) id 2 3
    (RunState.mk (0 : ℚ) 17) (RunState.mk (0 : ℚ) 42) rfl

/-- C7: `bf.cfg` assigns the key `Vserial_lo` twice — first `-4.0`,
then `6.0` (the second presumably meant as `Vserial_hi`) — and never
assigns `Vserial_hi`, so a loader that silently takes the last value
reads `6.0` for `Vserial_lo` and leaves `Vserial_hi` unset. -/
theorem duplicate_Vserial_lo :
    cfgValues "Vserial_lo" = [.num (-4), .num 6] ∧
    (cfgValues "Vserial_lo").length = 2 ∧
    cfgValues "Vserial_hi" = [] ∧
    cfgLast "Vserial_lo" = some (.num 6) ∧
    cfgLast "Vserial_hi" = none := by
  decide

end GalSim
